import Mathlib

/-!
# Verification of the nebula ray tracer's intersection core

Shallow embedding of the scene/BVH/material/render modules of the
nebula path tracer.  The `f32` scalars of the source are modelled by
exact rationals (`ℚ`); the hardware square root is modelled by
`Rat.sqrt`, which agrees with the ideal square root exactly on squares
of rationals (theorems whose truth depends on the *value* of a square
root carry an explicit exactness hypothesis).  Rust panics are modelled
by `Option`/`Except` results.  The samplers of `rand_util.rs` draw from
an ambient tape of pre-drawn values, passed explicitly.
-/

namespace Nebula

/-- `f32::EPSILON` (2⁻²³). -/
def f32_epsilon : ℚ := 1 / 2 ^ 23

/-- `f32::MAX` ((2 - 2⁻²³)·2¹²⁷). -/
def f32_max : ℚ := 2 ^ 128 - 2 ^ 104

/-- `f32::MIN` (-`f32::MAX`). -/
def f32_min : ℚ := -f32_max

/-- `glam::Vec3` with exact rational components. -/
structure Vec3 where
  x : ℚ
  y : ℚ
  z : ℚ
deriving DecidableEq

namespace Vec3

/-- `Vec3::ZERO`. -/
def ZERO : Vec3 := ⟨0, 0, 0⟩

/-- `Vec3::ONE`. -/
def ONE : Vec3 := ⟨1, 1, 1⟩

/-- Component access `v[i]` used by the slab test and the BVH sort keys. -/
def nth (v : Vec3) : Fin 3 → ℚ
  | ⟨0, _⟩ => v.x
  | ⟨1, _⟩ => v.y
  | ⟨_ + 2, _⟩ => v.z

instance : Add Vec3 := ⟨fun a b => ⟨a.x + b.x, a.y + b.y, a.z + b.z⟩⟩

instance : Sub Vec3 := ⟨fun a b => ⟨a.x - b.x, a.y - b.y, a.z - b.z⟩⟩

instance : Neg Vec3 := ⟨fun a => ⟨-a.x, -a.y, -a.z⟩⟩

/-- Componentwise product (glam's `Mul for Vec3`), used for colors. -/
instance : Mul Vec3 := ⟨fun a b => ⟨a.x * b.x, a.y * b.y, a.z * b.z⟩⟩

instance : SMul ℚ Vec3 := ⟨fun q v => ⟨q * v.x, q * v.y, q * v.z⟩⟩

instance : Zero Vec3 := ⟨ZERO⟩

/-- `Vec3::dot`. -/
def dot (a b : Vec3) : ℚ := a.x * b.x + a.y * b.y + a.z * b.z

/-- `Vec3::cross`. -/
def cross (a b : Vec3) : Vec3 :=
  ⟨a.y * b.z - a.z * b.y, a.z * b.x - a.x * b.z, a.x * b.y - a.y * b.x⟩

/-- `Vec3::length_squared`. -/
def length_squared (v : Vec3) : ℚ := dot v v

/-- `Vec3::length`; the `f32` square root is modelled by `Rat.sqrt`. -/
def length (v : Vec3) : ℚ := Rat.sqrt (length_squared v)

/-- `Vec3::normalize` (`self / self.length()`). -/
def normalize (v : Vec3) : Vec3 := (length v)⁻¹ • v

/-- Componentwise minimum (`Vec3::min`). -/
def vmin (a b : Vec3) : Vec3 := ⟨min a.x b.x, min a.y b.y, min a.z b.z⟩

/-- Componentwise maximum (`Vec3::max`). -/
def vmax (a b : Vec3) : Vec3 := ⟨max a.x b.x, max a.y b.y, max a.z b.z⟩

/-- `Vec3::max_element`. -/
def max_element (v : Vec3) : ℚ := max v.x (max v.y v.z)

/-- `Vec3::reflect` (`self - 2 * self.dot(normal) * normal`). -/
def reflect (v n : Vec3) : Vec3 := v - (2 * dot v n) • n

@[simp] lemma add_x (a b : Vec3) : (a + b).x = a.x + b.x := rfl

@[simp] lemma add_y (a b : Vec3) : (a + b).y = a.y + b.y := rfl

@[simp] lemma add_z (a b : Vec3) : (a + b).z = a.z + b.z := rfl

@[simp] lemma sub_x (a b : Vec3) : (a - b).x = a.x - b.x := rfl

@[simp] lemma sub_y (a b : Vec3) : (a - b).y = a.y - b.y := rfl

@[simp] lemma sub_z (a b : Vec3) : (a - b).z = a.z - b.z := rfl

@[simp] lemma neg_x (a : Vec3) : (-a).x = -a.x := rfl

@[simp] lemma neg_y (a : Vec3) : (-a).y = -a.y := rfl

@[simp] lemma neg_z (a : Vec3) : (-a).z = -a.z := rfl

@[simp] lemma mul_x (a b : Vec3) : (a * b).x = a.x * b.x := rfl

@[simp] lemma mul_y (a b : Vec3) : (a * b).y = a.y * b.y := rfl

@[simp] lemma mul_z (a b : Vec3) : (a * b).z = a.z * b.z := rfl

@[simp] lemma smul_x (q : ℚ) (a : Vec3) : (q • a).x = q * a.x := rfl

@[simp] lemma smul_y (q : ℚ) (a : Vec3) : (q • a).y = q * a.y := rfl

@[simp] lemma smul_z (q : ℚ) (a : Vec3) : (q • a).z = q * a.z := rfl

@[simp] lemma add_mk (a b c d e f : ℚ) :
    (⟨a, b, c⟩ : Vec3) + ⟨d, e, f⟩ = ⟨a + d, b + e, c + f⟩ := rfl

@[simp] lemma sub_mk (a b c d e f : ℚ) :
    (⟨a, b, c⟩ : Vec3) - ⟨d, e, f⟩ = ⟨a - d, b - e, c - f⟩ := rfl

@[simp] lemma neg_mk (a b c : ℚ) : -(⟨a, b, c⟩ : Vec3) = ⟨-a, -b, -c⟩ := rfl

@[simp] lemma mul_mk (a b c d e f : ℚ) :
    (⟨a, b, c⟩ : Vec3) * ⟨d, e, f⟩ = ⟨a * d, b * e, c * f⟩ := rfl

@[simp] lemma smul_mk (q a b c : ℚ) :
    q • (⟨a, b, c⟩ : Vec3) = ⟨q * a, q * b, q * c⟩ := rfl

@[simp] lemma nth_zero (v : Vec3) : v.nth 0 = v.x := rfl

@[simp] lemma nth_one (v : Vec3) : v.nth 1 = v.y := rfl

@[simp] lemma nth_two (v : Vec3) : v.nth 2 = v.z := rfl

end Vec3

/-- `Ray` (ray.rs): origin and direction.  `Ray::new` renormalizes. -/
structure Ray where
  origin : Vec3
  direction : Vec3
deriving DecidableEq

namespace Ray

/-- `Ray::new`: the direction is normalized at construction. -/
def new (origin direction : Vec3) : Ray := ⟨origin, direction.normalize⟩

/-- `Ray::at` (`at` is a Lean keyword, hence the prime). -/
def at' (r : Ray) (t : ℚ) : Vec3 := r.origin + t • r.direction

end Ray

/-- `AABB` (bvh.rs). -/
structure AABB where
  min : Vec3
  max : Vec3
deriving DecidableEq

namespace AABB

/-- `AABB::new`. -/
def new (min max : Vec3) : AABB := ⟨min, max⟩

/-- The degenerate-axis rejection condition of `AABB::hit`
(`ray.origin[i] <= self.min[i] || ray.origin[i] >= self.min[i]`),
taken verbatim from the source: both comparisons are against `min`. -/
def degenerateReject (b : AABB) (ray : Ray) (i : Fin 3) : Bool :=
  ray.origin.nth i ≤ b.min.nth i ∨ b.min.nth i ≤ ray.origin.nth i

/-- The slab loop of `AABB::hit` over the remaining axes, threading the
mutable `(t_min, t_max)` state; `false` models the early `return false`. -/
def slabLoop (b : AABB) (ray : Ray) : List (Fin 3) → ℚ → ℚ → Bool
  | [], _, _ => true
  | i :: rest, t_min, t_max =>
    if |ray.direction.nth i| < f32_epsilon then
      if degenerateReject b ray i then false
      else slabLoop b ray rest t_min t_max
    else
      let t0 := (b.min.nth i - ray.origin.nth i) / ray.direction.nth i
      let t1 := (b.max.nth i - ray.origin.nth i) / ray.direction.nth i
      let t0' := if t0 > t1 then t1 else t0
      let t1' := if t0 > t1 then t0 else t1
      let t_min' := Max.max t_min t0'
      let t_max' := Min.min t_max t1'
      if t_min' > t_max' ∨ t_max' ≤ 0 then false
      else slabLoop b ray rest t_min' t_max'

/-- `AABB::hit`: slab test over the three axes starting from the
interval `(f32::MIN, f32::MAX)`. -/
def hit (b : AABB) (ray : Ray) : Bool :=
  slabLoop b ray [0, 1, 2] f32_min f32_max

/-- `AABB::merge`. -/
def merge (b rhs : AABB) : AABB := ⟨b.min.vmin rhs.min, b.max.vmax rhs.max⟩

/-- `AABB::surface_area_half` (`a*b + b*c + c*a` of the extents). -/
def surface_area_half (b : AABB) : ℚ :=
  let a' := b.max.x - b.min.x
  let b' := b.max.y - b.min.y
  let c' := b.max.z - b.min.z
  a' * b' + b' * c' + c' * a'

end AABB

/-- `Material` (material.rs): a plain parameter record. -/
structure Material where
  ambient : Vec3
  diffuse : Vec3
  specular : Vec3
  emissive : Vec3
  transmission_filter : Vec3
  dissolve : ℚ
  specular_exponent : ℚ
  optical_density : ℚ
deriving DecidableEq

/-- `ScatteredRay` (material.rs). -/
structure ScatteredRay where
  ray : Ray
  coefficient : Vec3
deriving DecidableEq

/-- `HitRecord` (scene/mod.rs). -/
structure HitRecord where
  point : Vec3
  normal : Vec3
  t : ℚ
  material : Material
deriving DecidableEq

/-- `HitRecord::new`: the normal is renormalized here. -/
def HitRecord.new (point normal : Vec3) (t : ℚ) (material : Material) : HitRecord :=
  ⟨point, normal.normalize, t, material⟩

/-- `Sphere` (scene/primitive.rs). -/
structure Sphere where
  center : Vec3
  radius : ℚ
  material : Material
deriving DecidableEq

namespace Sphere

/-- The quadratic discriminant of `Sphere::hit`
(`half_b * half_b - c` with `half_b = oc·d`, `c = |oc|² - r²`). -/
def discriminant (s : Sphere) (ray : Ray) : ℚ :=
  let oc := ray.origin - s.center
  let half_b := oc.dot ray.direction
  let c := oc.length_squared - s.radius * s.radius
  half_b * half_b - c

/-- `Sphere::hit` (scene/primitive.rs): solve the quadratic, prefer the
smaller root, fall back to the larger one, reject when both lie outside
`[t_min, t_max]`.  The `f32` square root is modelled by `Rat.sqrt`. -/
def hit (s : Sphere) (ray : Ray) (t_min t_max : ℚ) : Option HitRecord :=
  let oc := ray.origin - s.center
  let half_b := oc.dot ray.direction
  let disc := discriminant s ray
  if disc > 0 then
    let sqrt_d := Rat.sqrt disc
    let root0 := -half_b - sqrt_d
    let root1 := -half_b + sqrt_d
    if root0 < t_min ∨ root0 > t_max then
      if root1 < t_min ∨ root1 > t_max then none
      else
        let point := ray.at' root1
        let normal := (s.radius)⁻¹ • (point - s.center)
        some (HitRecord.new point normal root1 s.material)
    else
      let point := ray.at' root0
      let normal := (s.radius)⁻¹ • (point - s.center)
      some (HitRecord.new point normal root0 s.material)
  else none

/-- `Sphere::bounding_box`. -/
def bounding_box (s : Sphere) : AABB :=
  AABB.new (s.center - ⟨s.radius, s.radius, s.radius⟩)
    (s.center + ⟨s.radius, s.radius, s.radius⟩)

end Sphere

/-- `Triangle` (scene/primitive.rs): vertices, per-vertex normals and
the material.  (The texture-coordinate fields play no role in any
claim and are omitted.) -/
structure Triangle where
  v0 : Vec3
  v1 : Vec3
  v2 : Vec3
  n0 : Vec3
  n1 : Vec3
  n2 : Vec3
  material : Material
deriving DecidableEq

namespace Triangle

/-- The Möller–Trumbore determinant `a = edge1 · (direction × edge2)`. -/
def mtA (tri : Triangle) (ray : Ray) : ℚ :=
  let edge1 := tri.v1 - tri.v0
  let edge2 := tri.v2 - tri.v0
  let h := ray.direction.cross edge2
  edge1.dot h

/-- Barycentric parameter `v = f * (s·h)` of `Triangle::hit`. -/
def baryV (tri : Triangle) (ray : Ray) : ℚ :=
  let edge2 := tri.v2 - tri.v0
  let h := ray.direction.cross edge2
  let f := 1 / mtA tri ray
  let s := ray.origin - tri.v0
  f * s.dot h

/-- Barycentric parameter `w = f * (direction·q)` of `Triangle::hit`. -/
def baryW (tri : Triangle) (ray : Ray) : ℚ :=
  let edge1 := tri.v1 - tri.v0
  let f := 1 / mtA tri ray
  let s := ray.origin - tri.v0
  let q := s.cross edge1
  f * ray.direction.dot q

/-- Ray parameter `t = f * (edge2·q)` of `Triangle::hit`. -/
def mtT (tri : Triangle) (ray : Ray) : ℚ :=
  let edge1 := tri.v1 - tri.v0
  let edge2 := tri.v2 - tri.v0
  let f := 1 / mtA tri ray
  let s := ray.origin - tri.v0
  let q := s.cross edge1
  f * edge2.dot q

/-- `Triangle::hit` (scene/primitive.rs), Möller–Trumbore.  Note that
the returned record is built literally — the interpolated normal is
*not* renormalized. -/
def hit (tri : Triangle) (ray : Ray) (t_min t_max : ℚ) : Option HitRecord :=
  if |mtA tri ray| < f32_epsilon then none
  else
    let v := baryV tri ray
    if v < 0 ∨ v > 1 then none
    else
      let w := baryW tri ray
      if w < 0 ∨ v + w > 1 then none
      else
        let t := mtT tri ray
        if t < t_min ∨ t > t_max then none
        else
          let hit_point := ray.at' t
          let normal := (1 - v - w) • tri.n0 + v • tri.n1 + w • tri.n2
          some ⟨hit_point, normal, t, tri.material⟩

/-- `Triangle::bounding_box`. -/
def bounding_box (tri : Triangle) : AABB :=
  AABB.new ((tri.v0.vmin tri.v1).vmin tri.v2) ((tri.v0.vmax tri.v1).vmax tri.v2)

end Triangle

/-- The closed set of primitives stored in a scene (the source's
`Arc<dyn Hittable + Sync + Send>` trait objects). -/
inductive Prim where
  | sphere (s : Sphere)
  | tri (t : Triangle)
deriving DecidableEq

namespace Prim

/-- Dynamic dispatch of `Hittable::hit`. -/
def hit (p : Prim) (ray : Ray) (t_min t_max : ℚ) : Option HitRecord :=
  match p with
  | sphere s => s.hit ray t_min t_max
  | tri t => t.hit ray t_min t_max

/-- Dynamic dispatch of `Hittable::bounding_box`. -/
def bounding_box (p : Prim) : AABB :=
  match p with
  | sphere s => s.bounding_box
  | tri t => t.bounding_box

end Prim

/-- `BVHNode` (bvh.rs). -/
inductive BVHNode where
  | internal (left right : BVHNode) (bbox : AABB)
  | leaf (objects : List Prim) (bbox : AABB)
deriving DecidableEq

namespace BVHNode

/-- `BVHNode::bbox`. -/
def bbox : BVHNode → AABB
  | internal _ _ b => b
  | leaf _ b => b

/-- `AABB::new(Vec3::ZERO, Vec3::ZERO)`, the seed of both cost passes
in `BVHNode::build`. -/
def zeroAABB : AABB := AABB.new Vec3.ZERO Vec3.ZERO

/-- The stable sort `objects.sort_by` on the minimum bounding-box
coordinate of the given axis. -/
def sortByAxis (axis : Fin 3) (objects : List Prim) : List Prim :=
  objects.mergeSort fun a b =>
    decide (a.bounding_box.min.nth axis ≤ b.bounding_box.min.nth axis)

/-- The right-to-left cost pass of `BVHNode::build`: walking the given
(already reversed) tail of the object list, merging boxes into the
running `bbox` and pushing `surface_area_half * (index + 1)`. -/
def costR2Lgo : List Prim → AABB → ℕ → List ℚ
  | [], _, _ => []
  | o :: rest, bbx, index =>
    let bbx' := bbx.merge o.bounding_box
    bbx'.surface_area_half * ((index : ℚ) + 1) :: costR2Lgo rest bbx' (index + 1)

/-- `cost_r2l` of `BVHNode::build`: the pass above runs over
`objects[1..]` reversed, then the vector is reversed. -/
def costR2L (objects : List Prim) : List ℚ :=
  (costR2Lgo ((objects.drop 1).reverse) zeroAABB 0).reverse

/-- The left-to-right cost pass of `BVHNode::build`, over the objects
paired with the corresponding `cost_r2l` entries. -/
def forwardGo : List (Prim × ℚ) → AABB → ℕ → List ℚ
  | [], _, _ => []
  | (o, cr) :: rest, bbx, i =>
    let bbx' := bbx.merge o.bounding_box
    (bbx'.surface_area_half * ((i : ℚ) + 1) + cr) :: forwardGo rest bbx' (i + 1)

/-- The list of split costs one axis pass of `BVHNode::build` evaluates
(`cost = bbox.surface_area_half() * (i+1) + cost_r2l[i]` for
`i = 0 .. objects.len() - 2`), for an already sorted object list. -/
def axisCosts (objects : List Prim) : List ℚ :=
  forwardGo (objects.zip (costR2L objects)) zeroAABB 0

/-- The running `(best_axis, best_division_index, min_cost)` update of
`BVHNode::build`: strictly smaller costs replace the current best. -/
def scanMinGo (axis : Fin 3) : List ℚ → ℕ → Fin 3 × ℕ × ℚ → Fin 3 × ℕ × ℚ
  | [], _, st => st
  | c :: rest, i, st =>
    scanMinGo axis rest (i + 1) (if c < st.2.2 then (axis, i, c) else st)

/-- One full axis iteration of the selection loop. -/
def scanMin (axis : Fin 3) (costs : List ℚ) (st : Fin 3 × ℕ × ℚ) : Fin 3 × ℕ × ℚ :=
  scanMinGo axis costs 0 st

/-- `BVHNode::build` (bvh.rs), with explicit recursion fuel (the Rust
recursion is bounded by the object count; `Scene::build_bvh` passes
`objects.length + 1` which always suffices).  `none` models a panic
(indexing `objects[0]` of an empty slice, or fuel exhaustion). -/
def build : ℕ → List Prim → ℕ → Option BVHNode
  | 0, _, _ => none
  | fuel + 1, objects, max_objects_per_leaf =>
    if objects.length ≤ max_objects_per_leaf then
      match objects with
      | [] => none
      | o0 :: _ =>
        some (leaf objects
          (objects.foldl (fun b o => b.merge o.bounding_box) o0.bounding_box))
    else
      let s0 := sortByAxis 0 objects
      let s1 := sortByAxis 1 s0
      let s2 := sortByAxis 2 s1
      let st0 := scanMin 0 (axisCosts s0) (0, 0, f32_max)
      let st1 := scanMin 1 (axisCosts s1) st0
      let st2 := scanMin 2 (axisCosts s2) st1
      let best_axis := st2.1
      let best_division_index := st2.2.1
      let sorted := sortByAxis best_axis s2
      match build fuel (sorted.take (best_division_index + 1)) max_objects_per_leaf,
            build fuel (sorted.drop (best_division_index + 1)) max_objects_per_leaf with
      | some l, some r => some (internal l r (l.bbox.merge r.bbox))
      | _, _ => none

/-- `BVHNode::hit` (bvh.rs): cull on the node box, then recurse
(internal nodes tighten `t_max` by the left result) or scan the leaf
objects keeping the closest hit. -/
def hit : BVHNode → Ray → ℚ → ℚ → Option HitRecord
  | internal left right bbx, ray, t_min, t_max =>
    if !(AABB.hit bbx ray) then none
    else
      match hit left ray t_min t_max with
      | some h =>
        match hit right ray t_min h.t with
        | some h' => some h'
        | none => some h
      | none => hit right ray t_min t_max
  | leaf objects bbx, ray, t_min, t_max =>
    if !(AABB.hit bbx ray) then none
    else
      objects.foldl (fun acc o =>
        let closest_t := match acc with
          | some h => h.t
          | none => t_max
        match o.hit ray t_min closest_t with
        | some h => some h
        | none => acc) none

end BVHNode

/-- `Scene` (scene/mod.rs). -/
structure Scene where
  objects : List Prim
  bvh : Option BVHNode

namespace Scene

/-- `Scene::MAX_OBJECTS_PER_BVH_LEAF`. -/
def MAX_OBJECTS_PER_BVH_LEAF : ℕ := 5

/-- `Scene::new`. -/
def new : Scene := ⟨[], none⟩

/-- `Scene::add`: push the primitive and invalidate the BVH. -/
def add (s : Scene) (object : Prim) : Scene := ⟨s.objects ++ [object], none⟩

/-- `Scene::build_bvh`; `none` models a propagated panic of the build. -/
def build_bvh (s : Scene) : Option Scene :=
  match BVHNode.build (s.objects.length + 1) s.objects MAX_OBJECTS_PER_BVH_LEAF with
  | some node => some ⟨s.objects, some node⟩
  | none => none

/-- `Scene::hit`: `assert!(!self.bvh.is_none())` then delegate to the
BVH root.  The failed assertion (a panic) is the `Except.error` case. -/
def hit (s : Scene) (ray : Ray) (t_min t_max : ℚ) : Except String (Option HitRecord) :=
  match s.bvh with
  | none => .error "assertion failed: !self.bvh.is_none()"
  | some bvh => .ok (bvh.hit ray t_min t_max)

end Scene

/-- `f32::powf`, modelled through the integer floor of the exponent.
This is exact for the integer exponents the repository uses
(`specular_exponent` values 0 and 1000). -/
def fpowf (b e : ℚ) : ℚ := b ^ ⌊e⌋

/-- One batch of sampler outputs from `rand_util.rs`: the results of
`random_unit_vector_cosine(normal)` and `random_unit_vector()` that one
`Material::scatter` call consumes.  The samplers are modelled as reads
from an ambient tape of pre-drawn values. -/
structure ScatterDraws where
  cosine_dir : Vec3
  unit_vec : Vec3

namespace Material

/-- `Material::FUZZ`. -/
def FUZZ : ℚ := 1 / 10

/-- `Material::AMBIENT_STRENGTH`. -/
def AMBIENT_STRENGTH : ℚ := 1 / 10

/-- `Material::emissive_color` (`self.emissive * 5.0`). -/
def emissive_color (m : Material) : Vec3 := (5 : ℚ) • m.emissive

/-- `Material::ambient_color` (`self.ambient * (1 - dissolve) * 0.1`). -/
def ambient_color (m : Material) : Vec3 :=
  ((1 - m.dissolve) * AMBIENT_STRENGTH) • m.ambient

/-- `Material::refract` (material.rs).  Square roots are `Rat.sqrt`. -/
def refract (m : Material) (ray : Ray) (normal : Vec3) : Option Vec3 :=
  let cos_theta := ray.direction.dot normal
  let sin_theta := Rat.sqrt (1 - cos_theta * cos_theta)
  if cos_theta > 0 then
    let sin_phi := sin_theta * m.optical_density
    let cos_phi := Rat.sqrt (1 - sin_phi * sin_phi)
    if sin_phi > 1 then none
    else if sin_phi < f32_epsilon then some normal
    else
      let u := (normal.cross (ray.direction.cross normal)).normalize
      let v := normal
      some ((sin_phi • u + cos_phi • v).normalize)
  else
    let sin_phi := sin_theta / m.optical_density
    let cos_phi := Rat.sqrt (1 - sin_phi * sin_phi)
    if sin_phi < f32_epsilon then some (-normal)
    else
      let u := (normal.cross (ray.direction.cross normal)).normalize
      let v := -normal
      some ((sin_phi • u + cos_phi • v).normalize)

/-- `Material::scatter` (material.rs): up to three candidate rays
(diffuse, specular, transmissive, in this order), each kept only when
its coefficient has a strictly positive maximum component. -/
def scatter (m : Material) (ray : Ray) (hit_record : HitRecord)
    (draws : ScatterDraws) : List ScatteredRay :=
  let normal := hit_record.normal
  let origin := hit_record.point
  let diffuse_coefficient := ((1 : ℚ) / 2 * (1 - m.dissolve)) • m.diffuse
  let diffuse_ray := Ray.new origin draws.cosine_dir
  let diffuse_part : List ScatteredRay :=
    if diffuse_coefficient.max_element > 0 then [⟨diffuse_ray, diffuse_coefficient⟩]
    else []
  let specular_coefficient := ((1 : ℚ) / 2 * (1 - m.dissolve)) • m.specular
  let specular_direction :=
    (ray.direction.reflect normal + fpowf FUZZ m.specular_exponent • draws.unit_vec).normalize
  let specular_ray := Ray.new origin specular_direction
  let specular_part : List ScatteredRay :=
    if specular_coefficient.max_element > 0 then [⟨specular_ray, specular_coefficient⟩]
    else []
  let transmissive_coefficient := m.dissolve • m.transmission_filter
  let transmissive_part : List ScatteredRay :=
    if transmissive_coefficient.max_element > 0 then
      match m.refract ray normal with
      | some transmissive_direction =>
        [⟨Ray.new origin transmissive_direction, transmissive_coefficient⟩]
      | none => []
    else []
  diffuse_part ++ specular_part ++ transmissive_part

end Material

/-- `T_MIN` (render.rs). -/
def T_MIN : ℚ := 1 / 1000

/-- `T_MAX` (render.rs). -/
def T_MAX : ℚ := 100000

/-- `ray_color` with explicit recursion fuel.  The fuel only gates the
recursive scattering step; along every reachable call the wrapper
`ray_color` supplies enough fuel (`max_depth + 1 - depth` levels of
scattering remain before the `depth > max_depth` guard stops the
recursion), so the fuel-out branch is dead code. -/
def ray_colorF : ℕ → Scene → Ray → ℕ → ℕ → (ℕ → ScatterDraws) → Except String Vec3
  | fuel, scene, ray, depth, max_depth, tape =>
    match scene.hit ray T_MIN T_MAX with
    | .error e => .error e
    | .ok none => .ok Vec3.ZERO
    | .ok (some h) =>
      let m := h.material
      let color := m.ambient_color + m.emissive_color
      if depth > max_depth then .ok color
      else
        match fuel with
        | 0 => .ok color
        | fuel' + 1 =>
          let scattered_rays := m.scatter ray h (tape 0)
          scattered_rays.foldl (fun acc sr =>
            match acc with
            | .error e => .error e
            | .ok c =>
              match ray_colorF fuel' scene sr.ray (depth + 1) max_depth
                  (fun n => tape (n + 1)) with
              | .error e => .error e
              | .ok c' => .ok (c + c' * sr.coefficient)) (.ok color)

/-- `ray_color` (render.rs): on a hit start from ambient + emissive,
stop when `depth > max_depth`, otherwise add the recursively gathered
color of every scattered ray weighted by its coefficient; black
background on a miss. -/
def ray_color (scene : Scene) (ray : Ray) (depth max_depth : ℕ)
    (tape : ℕ → ScatterDraws) : Except String Vec3 :=
  ray_colorF (max_depth + 1 - depth) scene ray depth max_depth tape

/-! ## Shared concrete instances used by witnesses and counterexamples -/

/-- A plaster-like diffuse material (no specular, emissive or
transmissive response). -/
def matA : Material :=
  ⟨⟨1/10, 1/10, 1/10⟩, ⟨4/5, 4/5, 4/5⟩, Vec3.ZERO, Vec3.ZERO, Vec3.ZERO, 0, 0, 1⟩

/-- A purely emissive material (every scatter coefficient is zero). -/
def matB : Material :=
  ⟨Vec3.ZERO, Vec3.ZERO, Vec3.ZERO, Vec3.ONE, Vec3.ZERO, 0, 0, 1⟩

/-- A large diffuse triangle in the plane `z = 0`, facing `+z`. -/
def triA : Triangle :=
  ⟨⟨-10, -10, 0⟩, ⟨30, -10, 0⟩, ⟨-10, 30, 0⟩, ⟨0, 0, 1⟩, ⟨0, 0, 1⟩, ⟨0, 0, 1⟩, matA⟩

/-- The same geometry as `triA`, emissive, in the plane `z = 12`. -/
def triB : Triangle :=
  ⟨⟨-10, -10, 12⟩, ⟨30, -10, 12⟩, ⟨-10, 30, 12⟩, ⟨0, 0, -1⟩, ⟨0, 0, -1⟩, ⟨0, 0, -1⟩, matB⟩

/-- An axis-parallel ray (`direction = (0,0,-1)`) from above. -/
def rayZ : Ray := ⟨⟨0, 0, 5⟩, ⟨0, 0, -1⟩⟩

/-- A unit ray from above with all direction components away from zero. -/
def rayG : Ray := ⟨⟨0, 0, 5⟩, ⟨3/13, 4/13, -12/13⟩⟩

/-- A unit sphere at the origin. -/
def sphA : Sphere := ⟨⟨0, 0, 0⟩, 1, matA⟩

/-- Modelled from the spec: the brute-force reference scan over all
primitives, calling every primitive's `hit` with the same interval and
keeping the minimum-`t` valid hit. -/
def linear_scan (objects : List Prim) (ray : Ray) (t_min t_max : ℚ) : Option HitRecord :=
  objects.foldl (fun best o =>
    match o.hit ray t_min t_max with
    | none => best
    | some h =>
      match best with
      | none => some h
      | some b => if h.t < b.t then some h else some b) none

/-- A scene holding only `triA`, with its BVH built. -/
def sceneA : Scene := ⟨[.tri triA], BVHNode.build 2 [.tri triA] 5⟩

/-- A two-triangle scene: the diffuse `triA` below, the emissive
`triB` above, BVH built (a single two-object leaf). -/
def sceneAB : Scene :=
  ⟨[.tri triA, .tri triB], BVHNode.build 3 [.tri triA, .tri triB] 5⟩

/-- A fixed random tape: every diffuse sample points at `triB`. -/
def tapeG : ℕ → ScatterDraws := fun _ => ⟨⟨3/13, 4/13, 12/13⟩, ⟨1, 0, 0⟩⟩

/-- A one-triangle scene whose only material is purely emissive. -/
def sceneL : Scene := ⟨[.tri ⟨⟨-10, -10, 0⟩, ⟨30, -10, 0⟩, ⟨-10, 30, 0⟩,
  ⟨0, 0, 1⟩, ⟨0, 0, 1⟩, ⟨0, 0, 1⟩, matB⟩],
  BVHNode.build 2 [.tri ⟨⟨-10, -10, 0⟩, ⟨30, -10, 0⟩, ⟨-10, 30, 0⟩,
  ⟨0, 0, 1⟩, ⟨0, 0, 1⟩, ⟨0, 0, 1⟩, matB⟩] 5⟩

/-- The fold of primitive bounding boxes onto a starting box. -/
def foldBB (b : AABB) (objects : List Prim) : AABB :=
  objects.foldl (fun acc o => acc.merge o.bounding_box) b

/-- The merged bounding box of a primitive group as the spec claim
reads it: the members' boxes alone, seeded with the first box. -/
def primsBBox : List Prim → AABB
  | [] => BVHNode.zeroAABB
  | o :: rest => foldBB o.bounding_box rest

/-- The zero-seeded bounding box the source's cost passes actually
accumulate (their running box starts at `AABB::new(ZERO, ZERO)`). -/
def seededBBox (objects : List Prim) : AABB := foldBB BVHNode.zeroAABB objects

/-- Modelled from the spec: the claimed SAH cost list,
`cost(i) = halfSA(prims 0..i) * (i+1) + halfSA(prims i+1..n-1) * (n-i-1)`,
with each group's box merged from the members' boxes alone. -/
def spec_sah_costs (objects : List Prim) : List ℚ :=
  (List.range (objects.length - 1)).map fun i =>
    (primsBBox (objects.take (i + 1))).surface_area_half * ((i : ℚ) + 1) +
      (primsBBox (objects.drop (i + 1))).surface_area_half *
        ((objects.length : ℚ) - (i : ℚ) - 1)

/-- Selecting one of the three per-axis cost lists. -/
def pick3 (c0 c1 c2 : List ℚ) : Fin 3 → List ℚ
  | ⟨0, _⟩ => c0
  | ⟨1, _⟩ => c1
  | ⟨_ + 2, _⟩ => c2

/-- Six unit spheres along the x axis, already sorted by minimum
bounding-box coordinate on every axis. -/
def exSpheres : List Prim :=
  [.sphere ⟨⟨10, 10, 10⟩, 1, matA⟩, .sphere ⟨⟨11, 10, 10⟩, 1, matA⟩,
   .sphere ⟨⟨12, 10, 10⟩, 1, matA⟩, .sphere ⟨⟨13, 10, 10⟩, 1, matA⟩,
   .sphere ⟨⟨14, 10, 10⟩, 1, matA⟩, .sphere ⟨⟨15, 10, 10⟩, 1, matA⟩]

/-! ## C9 — AABB merge algebra -/

/-- C9: `AABB::merge` is commutative and associative (the arithmetic of
the model is exact, so no tolerance is needed), and `merge a b`
contains both `a` and `b` on every axis. -/
theorem C9_merge_comm_assoc_contains :
    ∀ a b c : AABB, a.merge b = b.merge a ∧
      (a.merge b).merge c = a.merge (b.merge c) ∧
      (∀ i : Fin 3,
        (a.merge b).min.nth i ≤ a.min.nth i ∧
        (a.merge b).min.nth i ≤ b.min.nth i ∧
        a.max.nth i ≤ (a.merge b).max.nth i ∧
        b.max.nth i ≤ (a.merge b).max.nth i) := by
  intro a b c
  refine ⟨?_, ?_, ?_⟩
  · simp only [AABB.merge, Vec3.vmin, Vec3.vmax, AABB.mk.injEq, Vec3.mk.injEq]
    exact ⟨⟨min_comm _ _, min_comm _ _, min_comm _ _⟩,
           max_comm _ _, max_comm _ _, max_comm _ _⟩
  · simp only [AABB.merge, Vec3.vmin, Vec3.vmax, AABB.mk.injEq, Vec3.mk.injEq]
    exact ⟨⟨min_assoc _ _ _, min_assoc _ _ _, min_assoc _ _ _⟩,
           max_assoc _ _ _, max_assoc _ _ _, max_assoc _ _ _⟩
  · intro i
    fin_cases i <;>
      simp only [AABB.merge, Vec3.vmin, Vec3.vmax, Vec3.nth_zero, Vec3.nth_one,
        Vec3.nth_two, Fin.zero_eta, Fin.mk_one] <;>
      exact ⟨min_le_left _ _, min_le_right _ _, le_max_left _ _, le_max_right _ _⟩

/-! ## C5 — Scene::hit asserts on an unbuilt BVH -/

/-- C5: `Scene::hit` panics (assertion failure) exactly when the BVH is
absent, and otherwise returns exactly the BVH root's hit result. -/
theorem C5_scene_hit_asserts :
    ∀ (s : Scene) (ray : Ray) (t_min t_max : ℚ),
      ((∃ e, s.hit ray t_min t_max = .error e) ↔ s.bvh = none) ∧
      (∀ root, s.bvh = some root →
        s.hit ray t_min t_max = .ok (root.hit ray t_min t_max)) := by
  intro s ray t1 t2
  constructor
  · cases h : s.bvh <;> simp [Scene.hit, h]
  · intro root hr
    simp [Scene.hit, hr]

/-- C5 witness: a scene with no BVH errors out; a scene with a BVH root
delegates to it. -/
theorem C5_scene_hit_asserts_witness :
    (∃ e, Scene.hit ⟨[], none⟩ rayZ 0 1 = .error e) ∧
    Scene.hit ⟨[], some (BVHNode.leaf [] BVHNode.zeroAABB)⟩ rayZ 0 1 =
      .ok ((BVHNode.leaf [] BVHNode.zeroAABB).hit rayZ 0 1) :=
  ⟨(C5_scene_hit_asserts ⟨[], none⟩ rayZ 0 1).1.mpr rfl,
   (C5_scene_hit_asserts ⟨[], some (BVHNode.leaf [] BVHNode.zeroAABB)⟩ rayZ 0 1).2
     (BVHNode.leaf [] BVHNode.zeroAABB) rfl⟩

/-! ## C10 — Scene::add invalidates the BVH -/

/-- C10: `Scene::add` resets the BVH to `None`; afterwards every
`Scene::hit` query panics until `build_bvh` succeeds again, after which
queries delegate to the fresh root. -/
theorem C10_add_invalidates_bvh :
    ∀ (s : Scene) (o : Prim),
      (s.add o).bvh = none ∧
      (∀ (ray : Ray) (t_min t_max : ℚ), ∃ e,
        (s.add o).hit ray t_min t_max = .error e) ∧
      (∀ s', (s.add o).build_bvh = some s' →
        ∃ root, s'.bvh = some root ∧
          ∀ (ray : Ray) (t_min t_max : ℚ),
            s'.hit ray t_min t_max = .ok (root.hit ray t_min t_max)) := by
  intro s o
  refine ⟨rfl, fun ray t1 t2 => ⟨_, rfl⟩, ?_⟩
  intro s' h
  unfold Scene.build_bvh at h
  rcases hb : BVHNode.build ((s.add o).objects.length + 1) (s.add o).objects
      Scene.MAX_OBJECTS_PER_BVH_LEAF with _ | node
  · rw [hb] at h
    exact absurd h (by simp)
  · rw [hb] at h
    have hs' : s' = ⟨(s.add o).objects, some node⟩ := by
      cases h
      rfl
    subst hs'
    exact ⟨node, rfl, fun ray t1 t2 => rfl⟩

/-! ## C2 — the degenerate slab-test branch -/

/-- The source's degenerate-axis condition
(`o <= min || o >= min`) is a tautology: it always holds. -/
lemma degenerateReject_true (b : AABB) (ray : Ray) (i : Fin 3) :
    AABB.degenerateReject b ray i = true := by
  simp only [AABB.degenerateReject, decide_eq_true_eq]
  exact le_total (ray.origin.nth i) (b.min.nth i)

/-- Any remaining slab-loop axis with a near-zero direction component
forces the whole loop to reject. -/
lemma slabLoop_degenerate (b : AABB) (ray : Ray) :
    ∀ (axes : List (Fin 3)) (t1 t2 : ℚ),
      (∃ j ∈ axes, |ray.direction.nth j| < f32_epsilon) →
      AABB.slabLoop b ray axes t1 t2 = false := by
  intro axes
  induction axes with
  | nil =>
    rintro t1 t2 ⟨j, hj, _⟩
    exact absurd hj (List.not_mem_nil j)
  | cons i rest ih =>
    rintro t1 t2 ⟨j, hj, hdj⟩
    by_cases hi : |ray.direction.nth i| < f32_epsilon
    · simp only [AABB.slabLoop, if_pos hi, degenerateReject_true, if_true]
    · have hj' : j ∈ rest := by
        rcases List.mem_cons.mp hj with h | h
        · subst h
          exact absurd hdj hi
        · exact h
      simp only [AABB.slabLoop, if_neg hi]
      split_ifs <;> first | rfl | exact ih _ _ ⟨j, hj', hdj⟩

/-- C2 counterexample: a unit box with `max ≠ min` and a ray with a
zero direction component whose degenerate condition *does* evaluate
true, so the slab test *does* reject it in that branch (the ray passes
straight through the box). -/
theorem C2_counterexample :
    (⟨⟨0, 0, 0⟩, ⟨1, 1, 1⟩⟩ : AABB).max ≠ (⟨⟨0, 0, 0⟩, ⟨1, 1, 1⟩⟩ : AABB).min ∧
    |(⟨⟨1/2, 1/2, 5⟩, ⟨0, 0, -1⟩⟩ : Ray).direction.nth 0| < f32_epsilon ∧
    AABB.degenerateReject ⟨⟨0, 0, 0⟩, ⟨1, 1, 1⟩⟩ ⟨⟨1/2, 1/2, 5⟩, ⟨0, 0, -1⟩⟩ 0 = true ∧
    AABB.hit ⟨⟨0, 0, 0⟩, ⟨1, 1, 1⟩⟩ ⟨⟨1/2, 1/2, 5⟩, ⟨0, 0, -1⟩⟩ = false := by
  refine ⟨by simp [Vec3.ONE], by norm_num [f32_epsilon], ?_, ?_⟩
  · norm_num [AABB.degenerateReject]
  · norm_num [AABB.hit, AABB.slabLoop, AABB.degenerateReject, f32_epsilon]

/-- C2 amended: the degenerate-case condition always evaluates true, so
the slab test rejects *every* ray that has a near-zero direction
component on some axis, wherever its origin lies. -/
theorem C2_degenerate_always_rejects :
    ∀ (b : AABB) (ray : Ray) (i : Fin 3),
      AABB.degenerateReject b ray i = true ∧
      ((∃ j : Fin 3, |ray.direction.nth j| < f32_epsilon) →
        AABB.hit b ray = false) := by
  intro b ray i
  refine ⟨degenerateReject_true b ray i, ?_⟩
  rintro ⟨j, hj⟩
  exact slabLoop_degenerate b ray [0, 1, 2] f32_min f32_max
    ⟨j, by fin_cases j <;> decide, hj⟩

/-- C2 amended, witness: the concrete box and axis-parallel ray. -/
theorem C2_degenerate_always_rejects_witness :
    AABB.degenerateReject ⟨⟨0, 0, 0⟩, ⟨1, 1, 1⟩⟩ ⟨⟨1/2, 1/2, 5⟩, ⟨0, 0, -1⟩⟩ 1 = true ∧
    AABB.hit ⟨⟨0, 0, 0⟩, ⟨1, 1, 1⟩⟩ ⟨⟨1/2, 1/2, 5⟩, ⟨0, 0, -1⟩⟩ = false :=
  ⟨(C2_degenerate_always_rejects ⟨⟨0, 0, 0⟩, ⟨1, 1, 1⟩⟩ ⟨⟨1/2, 1/2, 5⟩, ⟨0, 0, -1⟩⟩ 1).1,
   (C2_degenerate_always_rejects ⟨⟨0, 0, 0⟩, ⟨1, 1, 1⟩⟩ ⟨⟨1/2, 1/2, 5⟩, ⟨0, 0, -1⟩⟩ 1).2
     ⟨0, by norm_num [f32_epsilon]⟩⟩

/-- C10 witness: adding a sphere to the fresh scene leaves `bvh = None`
and a panicking `hit`; rebuilding yields a working one-leaf BVH. -/
theorem C10_add_invalidates_bvh_witness :
    (Scene.new.add (.sphere sphA)).bvh = none ∧
    (∃ e, (Scene.new.add (.sphere sphA)).hit rayZ T_MIN T_MAX = .error e) ∧
    (∃ root,
      (⟨[Prim.sphere sphA],
        some (BVHNode.leaf [Prim.sphere sphA] ⟨⟨-1, -1, -1⟩, ⟨1, 1, 1⟩⟩)⟩ : Scene).bvh =
          some root ∧
      ∀ (ray : Ray) (t_min t_max : ℚ),
        Scene.hit ⟨[Prim.sphere sphA],
          some (BVHNode.leaf [Prim.sphere sphA] ⟨⟨-1, -1, -1⟩, ⟨1, 1, 1⟩⟩)⟩ ray t_min t_max =
          .ok (root.hit ray t_min t_max)) := by
  have h := C10_add_invalidates_bvh Scene.new (.sphere sphA)
  refine ⟨h.1, h.2.1 rayZ T_MIN T_MAX, h.2.2 _ ?_⟩
  norm_num [Scene.build_bvh, Scene.new, Scene.add, Scene.MAX_OBJECTS_PER_BVH_LEAF,
    BVHNode.build, Prim.bounding_box, Sphere.bounding_box, sphA, AABB.new, AABB.merge,
    Vec3.vmin, Vec3.vmax, Scene.mk.injEq]

/-! ## C7 — Triangle::hit barycentric invariants -/

/-- C7: at every reported triangle hit the barycentric weights
`u = 1 - v - w`, `v`, `w` are nonnegative, sum to one and lie in
`[0, 1]`, and the hit parameter lies in `[t_min, t_max]`; a ray
parallel to the plane (`|a| < ε`) or with out-of-range parameters
yields no hit. -/
theorem C7_triangle_hit_barycentric :
    ∀ (tri : Triangle) (ray : Ray) (t_min t_max : ℚ),
      (∀ rec, tri.hit ray t_min t_max = some rec →
        0 ≤ 1 - tri.baryV ray - tri.baryW ray ∧
        0 ≤ tri.baryV ray ∧ tri.baryV ray ≤ 1 ∧
        0 ≤ tri.baryW ray ∧ tri.baryW ray ≤ 1 ∧
        (1 - tri.baryV ray - tri.baryW ray) + tri.baryV ray + tri.baryW ray = 1 ∧
        rec.t = tri.mtT ray ∧ t_min ≤ rec.t ∧ rec.t ≤ t_max) ∧
      (|tri.mtA ray| < f32_epsilon → tri.hit ray t_min t_max = none) ∧
      ((tri.baryV ray < 0 ∨ 1 < tri.baryV ray ∨ tri.baryW ray < 0 ∨
          1 < tri.baryV ray + tri.baryW ray) → tri.hit ray t_min t_max = none) := by
  intro tri ray t_min t_max
  refine ⟨?_, ?_, ?_⟩
  · intro rec h
    simp only [Triangle.hit] at h
    split_ifs at h with h1 h2 h3 h4
    push_neg at h2 h3 h4
    obtain rfl : rec = _ := (Option.some.inj h).symm
    exact ⟨by linarith [h3.2], h2.1, h2.2, h3.1, by linarith [h2.1, h3.2], by ring,
      rfl, h4.1, h4.2⟩
  · intro h1
    simp only [Triangle.hit]
    rw [if_pos h1]
  · intro hbad
    simp only [Triangle.hit]
    split_ifs with h1 h2 h3 h4
    · rfl
    · rfl
    · rfl
    · rfl
    · exfalso
      push_neg at h2 h3
      rcases hbad with h | h | h | h
      · linarith [h2.1]
      · linarith [h2.2]
      · linarith [h3.1]
      · linarith [h3.2]

/-- C7 witness: the concrete triangle/ray hit at `v = w = 1/4`,
`t = 5`. -/
theorem C7_triangle_hit_barycentric_witness :
    0 ≤ 1 - triA.baryV rayZ - triA.baryW rayZ ∧
    0 ≤ triA.baryV rayZ ∧ triA.baryV rayZ ≤ 1 ∧
    0 ≤ triA.baryW rayZ ∧ triA.baryW rayZ ≤ 1 ∧
    (1 - triA.baryV rayZ - triA.baryW rayZ) + triA.baryV rayZ + triA.baryW rayZ = 1 ∧
    (⟨⟨0, 0, 0⟩, ⟨0, 0, 1⟩, 5, matA⟩ : HitRecord).t = triA.mtT rayZ ∧
    T_MIN ≤ (⟨⟨0, 0, 0⟩, ⟨0, 0, 1⟩, 5, matA⟩ : HitRecord).t ∧
    (⟨⟨0, 0, 0⟩, ⟨0, 0, 1⟩, 5, matA⟩ : HitRecord).t ≤ T_MAX :=
  (C7_triangle_hit_barycentric triA rayZ T_MIN T_MAX).1 ⟨⟨0, 0, 0⟩, ⟨0, 0, 1⟩, 5, matA⟩
    (by norm_num [Triangle.hit, Triangle.baryV, Triangle.baryW, Triangle.mtA,
      Triangle.mtT, Vec3.cross, Vec3.dot, f32_epsilon, triA, rayZ, matA,
      T_MIN, T_MAX, Ray.at', HitRecord.mk.injEq, Vec3.mk.injEq])

/-! ## C4 — normal lengths of hit records -/

lemma ratSqrt_one : Rat.sqrt 1 = 1 := by
  have h := Rat.sqrt_eq 1
  rwa [one_mul, abs_one] at h

lemma Vec3.smul_dot_smul (q : ℚ) (a : Vec3) :
    (q • a).dot (q • a) = q * q * a.dot a := by
  simp only [Vec3.dot, Vec3.smul_x, Vec3.smul_y, Vec3.smul_z]
  ring

lemma Vec3.one_smul_eq (a : Vec3) : (1 : ℚ) • a = a := by
  cases a
  simp

/-- Normalizing a vector of unit squared length leaves it unchanged. -/
lemma Vec3.normalize_of_dot_one (a : Vec3) (h : a.dot a = 1) :
    a.normalize = a := by
  simp only [Vec3.normalize, Vec3.length, Vec3.length_squared, h, ratSqrt_one, inv_one]
  exact Vec3.one_smul_eq a

/-- A root accepted by `Sphere::hit` puts the hit point exactly on the
sphere, provided the modelled square root of the discriminant is
exact. -/
lemma sphere_root_on_sphere (s : Sphere) (ray : Ray) (root : ℚ)
    (hd : ray.direction.dot ray.direction = 1)
    (hsq : Rat.sqrt (s.discriminant ray) * Rat.sqrt (s.discriminant ray) =
      s.discriminant ray)
    (hr : root = -((ray.origin - s.center).dot ray.direction) -
            Rat.sqrt (s.discriminant ray) ∨
          root = -((ray.origin - s.center).dot ray.direction) +
            Rat.sqrt (s.discriminant ray)) :
    (ray.at' root - s.center).dot (ray.at' root - s.center) = s.radius * s.radius := by
  have expand : (ray.at' root - s.center).dot (ray.at' root - s.center) =
      (ray.origin - s.center).dot (ray.origin - s.center) +
        2 * root * ((ray.origin - s.center).dot ray.direction) +
        root ^ 2 * (ray.direction.dot ray.direction) := by
    simp only [Ray.at', Vec3.dot, Vec3.add_x, Vec3.add_y, Vec3.add_z, Vec3.sub_x,
      Vec3.sub_y, Vec3.sub_z, Vec3.smul_x, Vec3.smul_y, Vec3.smul_z]
    ring
  rw [expand, hd]
  have hdisc : s.discriminant ray =
      ((ray.origin - s.center).dot ray.direction) *
        ((ray.origin - s.center).dot ray.direction) -
      ((ray.origin - s.center).dot (ray.origin - s.center) - s.radius * s.radius) := by
    simp only [Sphere.discriminant, Vec3.length_squared]
  rcases hr with hr | hr <;> subst hr <;> linear_combination hsq + hdisc

/-- C4 counterexample: `Triangle::hit` copies the barycentric
interpolation of the vertex normals without renormalizing, so a
triangle with differing vertex normals yields a non-unit hit normal. -/
theorem C4_counterexample :
    Triangle.hit ⟨⟨-10, -10, 0⟩, ⟨30, -10, 0⟩, ⟨-10, 30, 0⟩,
        ⟨0, 0, 1⟩, ⟨0, 0, 1⟩, ⟨1, 0, 0⟩, matA⟩ rayG T_MIN T_MAX =
      some ⟨⟨5/4, 5/3, 0⟩, ⟨7/24, 0, 17/24⟩, 65/12, matA⟩ ∧
    Vec3.dot ⟨7/24, 0, 17/24⟩ ⟨7/24, 0, 17/24⟩ ≠ 1 := by
  constructor
  · norm_num [Triangle.hit, Triangle.baryV, Triangle.baryW, Triangle.mtA,
      Triangle.mtT, Vec3.cross, Vec3.dot, f32_epsilon, rayG, matA, T_MIN, T_MAX,
      Ray.at', HitRecord.mk.injEq, Vec3.mk.injEq, abs_lt]
  · norm_num [Vec3.dot]

/-- C4 amended: every `HitRecord` produced by `Sphere::hit` (unit ray
direction, positive radius, exactly-represented square root of the
discriminant) has a unit normal — `Sphere::hit` normalizes through
`HitRecord::new` — whereas `Triangle::hit` does not renormalize. -/
theorem C4_sphere_hit_normal_unit :
    ∀ (s : Sphere) (ray : Ray) (t_min t_max : ℚ) (rec : HitRecord),
      ray.direction.dot ray.direction = 1 →
      Rat.sqrt (s.discriminant ray) * Rat.sqrt (s.discriminant ray) =
        s.discriminant ray →
      0 < s.radius →
      s.hit ray t_min t_max = some rec →
      rec.normal.dot rec.normal = 1 := by
  have aux : ∀ (s : Sphere) (ray : Ray) (root : ℚ),
      ray.direction.dot ray.direction = 1 →
      Rat.sqrt (s.discriminant ray) * Rat.sqrt (s.discriminant ray) =
        s.discriminant ray →
      0 < s.radius →
      (root = -((ray.origin - s.center).dot ray.direction) -
          Rat.sqrt (s.discriminant ray) ∨
        root = -((ray.origin - s.center).dot ray.direction) +
          Rat.sqrt (s.discriminant ray)) →
      (HitRecord.new (ray.at' root)
          (s.radius⁻¹ • (ray.at' root - s.center)) root s.material).normal.dot
        (HitRecord.new (ray.at' root)
          (s.radius⁻¹ • (ray.at' root - s.center)) root s.material).normal = 1 := by
    intro s ray root hd hsq hrad hr
    have hon := sphere_root_on_sphere s ray root hd hsq hr
    have hn : (s.radius⁻¹ • (ray.at' root - s.center)).dot
        (s.radius⁻¹ • (ray.at' root - s.center)) = 1 := by
      rw [Vec3.smul_dot_smul, hon]
      field_simp
    simp only [HitRecord.new]
    rw [Vec3.normalize_of_dot_one _ hn]
    exact hn
  intro s ray t_min t_max rec hd hsq hrad hhit
  simp only [Sphere.hit] at hhit
  split_ifs at hhit
  all_goals
    first
      | exact Option.noConfusion hhit
      | (injection hhit with h'
         subst h'
         first
           | exact aux s ray _ hd hsq hrad (Or.inl rfl)
           | exact aux s ray _ hd hsq hrad (Or.inr rfl))

/-- C4 amended, witness: the concrete unit sphere hit from above. -/
theorem C4_sphere_hit_normal_unit_witness :
    (⟨⟨0, 0, 1⟩, ⟨0, 0, 1⟩, 4, matA⟩ : HitRecord).normal.dot
      (⟨⟨0, 0, 1⟩, ⟨0, 0, 1⟩, 4, matA⟩ : HitRecord).normal = 1 :=
  C4_sphere_hit_normal_unit sphA rayZ T_MIN T_MAX _
    (by norm_num [rayZ, Vec3.dot])
    (by norm_num [Sphere.discriminant, sphA, rayZ, Vec3.dot, Vec3.length_squared,
      ratSqrt_one])
    (by norm_num [sphA])
    (by norm_num [Sphere.hit, Sphere.discriminant, sphA, rayZ, Vec3.dot,
      Vec3.length_squared, ratSqrt_one, T_MIN, T_MAX, Ray.at', HitRecord.new,
      Vec3.normalize, Vec3.length, Vec3.length_squared, HitRecord.mk.injEq,
      Vec3.mk.injEq])

/-! ## C6 — Sphere::hit root selection and the aimed-at-center scenario -/

/-- C6: no hit for discriminant ≤ 0; the smaller root is preferred,
the larger is the fallback, no hit when both lie outside
`[t_min, t_max]`; and a unit ray aimed at the center from distance
`dist > r` hits at `t = dist - r` with a unit, radially outward
normal. -/
theorem C6_sphere_hit_root_selection :
    ∀ (s : Sphere) (ray : Ray) (t_min t_max : ℚ),
      (s.discriminant ray ≤ 0 → s.hit ray t_min t_max = none) ∧
      (0 < s.discriminant ray →
        ((¬(-((ray.origin - s.center).dot ray.direction) -
              Rat.sqrt (s.discriminant ray) < t_min ∨
            -((ray.origin - s.center).dot ray.direction) -
              Rat.sqrt (s.discriminant ray) > t_max) →
          ∃ rec, s.hit ray t_min t_max = some rec ∧
            rec.t = -((ray.origin - s.center).dot ray.direction) -
              Rat.sqrt (s.discriminant ray)) ∧
         ((-((ray.origin - s.center).dot ray.direction) -
              Rat.sqrt (s.discriminant ray) < t_min ∨
            -((ray.origin - s.center).dot ray.direction) -
              Rat.sqrt (s.discriminant ray) > t_max) →
          ¬(-((ray.origin - s.center).dot ray.direction) +
              Rat.sqrt (s.discriminant ray) < t_min ∨
            -((ray.origin - s.center).dot ray.direction) +
              Rat.sqrt (s.discriminant ray) > t_max) →
          ∃ rec, s.hit ray t_min t_max = some rec ∧
            rec.t = -((ray.origin - s.center).dot ray.direction) +
              Rat.sqrt (s.discriminant ray)) ∧
         ((-((ray.origin - s.center).dot ray.direction) -
              Rat.sqrt (s.discriminant ray) < t_min ∨
            -((ray.origin - s.center).dot ray.direction) -
              Rat.sqrt (s.discriminant ray) > t_max) →
          (-((ray.origin - s.center).dot ray.direction) +
              Rat.sqrt (s.discriminant ray) < t_min ∨
            -((ray.origin - s.center).dot ray.direction) +
              Rat.sqrt (s.discriminant ray) > t_max) →
          s.hit ray t_min t_max = none))) ∧
      (∀ dist : ℚ, 0 < s.radius → s.radius < dist →
        ray.direction.dot ray.direction = 1 →
        s.center = ray.origin + dist • ray.direction →
        t_min ≤ dist - s.radius → dist - s.radius ≤ t_max →
        ∃ rec, s.hit ray t_min t_max = some rec ∧
          rec.t = dist - s.radius ∧
          rec.normal = s.radius⁻¹ • (rec.point - s.center) ∧
          rec.normal.dot rec.normal = 1) := by
  intro s ray t_min t_max
  refine ⟨?_, ?_, ?_⟩
  · intro h
    simp only [Sphere.hit]
    rw [if_neg (not_lt.mpr h)]
  · intro hdisc
    refine ⟨?_, ?_, ?_⟩
    · intro h0
      simp only [Sphere.hit]
      rw [if_pos hdisc, if_neg h0]
      exact ⟨_, rfl, rfl⟩
    · intro h0 h1
      simp only [Sphere.hit]
      rw [if_pos hdisc, if_pos h0, if_neg h1]
      exact ⟨_, rfl, rfl⟩
    · intro h0 h1
      simp only [Sphere.hit]
      rw [if_pos hdisc, if_pos h0, if_pos h1]
  · intro dist hrad hdist hd hc ht1 ht2
    have hB : (ray.origin - s.center).dot ray.direction = -dist := by
      rw [hc]
      simp only [Vec3.dot, Vec3.sub_x, Vec3.sub_y, Vec3.sub_z, Vec3.add_x,
        Vec3.add_y, Vec3.add_z, Vec3.smul_x, Vec3.smul_y, Vec3.smul_z] at hd ⊢
      linear_combination (-dist) * hd
    have hA : (ray.origin - s.center).dot (ray.origin - s.center) = dist * dist := by
      rw [hc]
      simp only [Vec3.dot, Vec3.sub_x, Vec3.sub_y, Vec3.sub_z, Vec3.add_x,
        Vec3.add_y, Vec3.add_z, Vec3.smul_x, Vec3.smul_y, Vec3.smul_z] at hd ⊢
      linear_combination (dist * dist) * hd
    have hdisc : s.discriminant ray = s.radius * s.radius := by
      simp only [Sphere.discriminant, Vec3.length_squared, hB, hA]
      ring
    have hsqrt : Rat.sqrt (s.discriminant ray) = s.radius := by
      rw [hdisc, Rat.sqrt_eq]
      exact abs_of_pos hrad
    have hsq : Rat.sqrt (s.discriminant ray) * Rat.sqrt (s.discriminant ray) =
        s.discriminant ray := by
      rw [hsqrt, hdisc]
    have hroot0 : -((ray.origin - s.center).dot ray.direction) -
        Rat.sqrt (s.discriminant ray) = dist - s.radius := by
      rw [hB, hsqrt]
      ring
    have hdiscpos : s.discriminant ray > 0 := by
      rw [hdisc]
      positivity
    have hn : (s.radius⁻¹ • (ray.at' (dist - s.radius) - s.center)).dot
        (s.radius⁻¹ • (ray.at' (dist - s.radius) - s.center)) = 1 := by
      rw [Vec3.smul_dot_smul,
        sphere_root_on_sphere s ray (dist - s.radius) hd hsq (Or.inl hroot0.symm)]
      field_simp
    refine ⟨HitRecord.new (ray.at' (dist - s.radius))
      (s.radius⁻¹ • (ray.at' (dist - s.radius) - s.center)) (dist - s.radius)
      s.material, ?_, rfl, ?_, ?_⟩
    · simp only [Sphere.hit]
      rw [if_pos hdiscpos, hroot0, if_neg (by push_neg; exact ⟨ht1, ht2⟩)]
    · show Vec3.normalize _ = _
      rw [Vec3.normalize_of_dot_one _ hn]
      rfl
    · show (Vec3.normalize _).dot (Vec3.normalize _) = 1
      rw [Vec3.normalize_of_dot_one _ hn]
      exact hn

/-- C6 witness: the unit sphere at the origin, hit from distance 5. -/
theorem C6_sphere_hit_root_selection_witness :
    ∃ rec, sphA.hit rayZ T_MIN T_MAX = some rec ∧
      rec.t = 5 - sphA.radius ∧
      rec.normal = sphA.radius⁻¹ • (rec.point - sphA.center) ∧
      rec.normal.dot rec.normal = 1 :=
  (C6_sphere_hit_root_selection sphA rayZ T_MIN T_MAX).2.2 5
    (by norm_num [sphA])
    (by norm_num [sphA])
    (by norm_num [rayZ, Vec3.dot])
    (by norm_num [sphA, rayZ, Vec3.mk.injEq])
    (by norm_num [sphA, T_MIN])
    (by norm_num [sphA, T_MAX])

/-! ## C1 — BVH traversal versus the brute-force linear scan -/

set_option maxHeartbeats 1600000 in
/-- C1 (code bug): for the axis-parallel ray `rayZ` the built BVH
reports no hit — the degenerate slab-test branch rejects the root box —
while the brute-force linear scan over the same primitives finds the
triangle hit at `t = 5`. -/
theorem C1_bvh_misses_axis_parallel_hit :
    Scene.hit sceneA rayZ T_MIN T_MAX = .ok none ∧
    linear_scan sceneA.objects rayZ T_MIN T_MAX =
      some ⟨⟨0, 0, 0⟩, ⟨0, 0, 1⟩, 5, matA⟩ := by
  constructor
  · norm_num [sceneA, Scene.hit, BVHNode.build, BVHNode.hit, AABB.hit, AABB.slabLoop,
      AABB.degenerateReject, AABB.merge, Vec3.vmin, Vec3.vmax, Prim.bounding_box,
      Triangle.bounding_box, AABB.new, triA, rayZ, f32_epsilon, BVHNode.bbox]
  · norm_num [sceneA, linear_scan, Prim.hit, Triangle.hit, Triangle.baryV,
      Triangle.baryW, Triangle.mtA, Triangle.mtT, Vec3.cross, Vec3.dot, f32_epsilon,
      triA, rayZ, matA, T_MIN, T_MAX, Ray.at', HitRecord.mk.injEq, Vec3.mk.injEq,
      abs_lt]

/-! ## C3 — ray_color at depth 0 with max_depth = 0 -/

set_option maxHeartbeats 3200000 in
/-- C3 counterexample: with `max_depth = 0` and fixed randomness, a ray
whose scene query hits a diffuse material does *not* return
ambient + emissive of the first hit: the guard is `depth > max_depth`,
so depth 0 still scatters once and collects the emissive triangle it is
steered into (`201/100 ≠ 1/100` per channel). -/
theorem C3_counterexample :
    Scene.hit sceneAB rayG T_MIN T_MAX =
      .ok (some ⟨⟨5/4, 5/3, 0⟩, ⟨0, 0, 1⟩, 65/12, matA⟩) ∧
    ray_color sceneAB rayG 0 0 tapeG = .ok ⟨201/100, 201/100, 201/100⟩ ∧
    Material.ambient_color matA + Material.emissive_color matA =
      ⟨1/100, 1/100, 1/100⟩ ∧
    (⟨201/100, 201/100, 201/100⟩ : Vec3) ≠ ⟨1/100, 1/100, 1/100⟩ := by
  refine ⟨?_, ?_, ?_, ?_⟩
  · norm_num [sceneAB, Scene.hit, BVHNode.build, BVHNode.hit, AABB.hit, AABB.slabLoop,
      AABB.degenerateReject, AABB.merge, Vec3.vmin, Vec3.vmax, Prim.bounding_box,
      Triangle.bounding_box, AABB.new, BVHNode.bbox, Prim.hit, Triangle.hit,
      Triangle.baryV, Triangle.baryW, Triangle.mtA, Triangle.mtT, Vec3.cross, Vec3.dot,
      f32_epsilon, f32_max, f32_min, triA, triB, rayG, matA, matB, T_MIN, T_MAX,
      Ray.at', HitRecord.mk.injEq, Vec3.mk.injEq, abs_lt, min_def, max_def]
  · norm_num [ray_color, ray_colorF, sceneAB, Scene.hit, BVHNode.build, BVHNode.hit,
      AABB.hit, AABB.slabLoop, AABB.degenerateReject, AABB.merge, Vec3.vmin, Vec3.vmax,
      Prim.bounding_box, Triangle.bounding_box, AABB.new, BVHNode.bbox, Prim.hit,
      Triangle.hit, Triangle.baryV, Triangle.baryW, Triangle.mtA, Triangle.mtT,
      Vec3.cross, Vec3.dot, f32_epsilon, f32_max, f32_min, triA, triB, rayG, matA, matB,
      T_MIN, T_MAX, Ray.at', Material.scatter, Material.ambient_color,
      Material.emissive_color, Material.refract, Material.FUZZ, Material.AMBIENT_STRENGTH,
      Vec3.max_element, Vec3.ZERO, Vec3.ONE, Ray.new, Vec3.normalize, Vec3.length,
      Vec3.length_squared, ratSqrt_one, fpowf, tapeG, HitRecord.mk.injEq, Vec3.mk.injEq,
      abs_lt, min_def, max_def]
  · norm_num [Material.ambient_color, Material.emissive_color, matA, Vec3.ZERO,
      Material.AMBIENT_STRENGTH]
  · simp [Vec3.mk.injEq]
    norm_num

/-- C3 amended: `ray_color` returns exactly ambient + emissive of the
first hit only when `depth > max_depth` (so at depth ≥ 1 for
`max_depth = 0`), or when the hit material scatters no rays; at depth 0
with `max_depth = 0` one round of scattering is still accumulated. -/
theorem C3_ray_color_depth_guard :
    ∀ (scene : Scene) (ray : Ray) (tape : ℕ → ScatterDraws) (depth : ℕ)
      (rec : HitRecord),
      scene.hit ray T_MIN T_MAX = .ok (some rec) →
      (0 < depth → ray_color scene ray depth 0 tape =
        .ok (rec.material.ambient_color + rec.material.emissive_color)) ∧
      (rec.material.scatter ray rec (tape 0) = [] →
        ray_color scene ray 0 0 tape =
        .ok (rec.material.ambient_color + rec.material.emissive_color)) := by
  intro scene ray tape depth rec hhit
  constructor
  · intro hd
    unfold ray_color ray_colorF
    rw [hhit]
    simp only [gt_iff_lt, hd, if_true]
  · intro hscatter
    unfold ray_color ray_colorF
    rw [hhit]
    simp only [Nat.zero_add, Nat.sub_zero, gt_iff_lt, lt_irrefl, if_false]
    rw [hscatter]
    simp

set_option maxHeartbeats 1600000 in
/-- C3 amended, witness: on the purely emissive scene the result is
ambient + emissive both at depth 1 (guard) and at depth 0 (empty
scatter list). -/
theorem C3_ray_color_depth_guard_witness :
    ray_color sceneL rayG 1 0 tapeG =
      .ok (matB.ambient_color + matB.emissive_color) ∧
    ray_color sceneL rayG 0 0 tapeG =
      .ok (matB.ambient_color + matB.emissive_color) := by
  have hhit : Scene.hit sceneL rayG T_MIN T_MAX =
      .ok (some ⟨⟨5/4, 5/3, 0⟩, ⟨0, 0, 1⟩, 65/12, matB⟩) := by
    norm_num [sceneL, Scene.hit, BVHNode.build, BVHNode.hit, AABB.hit, AABB.slabLoop,
      AABB.degenerateReject, AABB.merge, Vec3.vmin, Vec3.vmax, Prim.bounding_box,
      Triangle.bounding_box, AABB.new, BVHNode.bbox, Prim.hit, Triangle.hit,
      Triangle.baryV, Triangle.baryW, Triangle.mtA, Triangle.mtT, Vec3.cross, Vec3.dot,
      f32_epsilon, f32_max, f32_min, rayG, matB, T_MIN, T_MAX, Ray.at',
      HitRecord.mk.injEq, Vec3.mk.injEq, abs_lt, min_def, max_def]
  have hscatter : Material.scatter matB rayG
      ⟨⟨5/4, 5/3, 0⟩, ⟨0, 0, 1⟩, 65/12, matB⟩ (tapeG 0) = [] := by
    norm_num [Material.scatter, Material.refract, Material.FUZZ, Vec3.max_element,
      matB, Vec3.ZERO, Vec3.ONE, tapeG, Ray.new, Vec3.normalize, Vec3.length,
      Vec3.length_squared, ratSqrt_one, fpowf, Vec3.dot, Vec3.cross, Vec3.reflect,
      f32_epsilon, abs_lt]
  exact ⟨(C3_ray_color_depth_guard sceneL rayG tapeG 1
      ⟨⟨5/4, 5/3, 0⟩, ⟨0, 0, 1⟩, 65/12, matB⟩ hhit).1 one_pos,
    (C3_ray_color_depth_guard sceneL rayG tapeG 0
      ⟨⟨5/4, 5/3, 0⟩, ⟨0, 0, 1⟩, 65/12, matB⟩ hhit).2 hscatter⟩

/-! ## C8 — BVH build: leaf rule, SAH costs, split selection -/

lemma max_right_comm' (a b c : ℚ) : max (max a b) c = max (max a c) b := by
  rw [max_assoc, max_comm b c, ← max_assoc]

lemma AABB.merge_self (b : AABB) : b.merge b = b := by
  cases b
  simp [AABB.merge, Vec3.vmin, Vec3.vmax]

lemma AABB.merge_right_comm (b x y : AABB) :
    (b.merge x).merge y = (b.merge y).merge x := by
  simp only [AABB.merge, Vec3.vmin, Vec3.vmax, AABB.mk.injEq, Vec3.mk.injEq]
  exact ⟨⟨min_right_comm _ _ _, min_right_comm _ _ _, min_right_comm _ _ _⟩,
    max_right_comm' _ _ _, max_right_comm' _ _ _, max_right_comm' _ _ _⟩

instance : RightCommutative (fun (acc : AABB) (o : Prim) => acc.merge o.bounding_box) :=
  ⟨fun b a a' => AABB.merge_right_comm b _ _⟩

lemma foldBB_reverse (b : AABB) (l : List Prim) : foldBB b l.reverse = foldBB b l :=
  (List.reverse_perm l).foldl_eq b

lemma foldBB_cons (b : AABB) (o : Prim) (rest : List Prim) :
    foldBB b (o :: rest) = foldBB (b.merge o.bounding_box) rest := rfl

lemma costR2Lgo_length :
    ∀ (l : List Prim) (b : AABB) (k : ℕ),
      (BVHNode.costR2Lgo l b k).length = l.length := by
  intro l
  induction l with
  | nil => intro b k; rfl
  | cons o rest ih => intro b k; simp [BVHNode.costR2Lgo, ih]

lemma costR2Lgo_get? :
    ∀ (l : List Prim) (b : AABB) (k i : ℕ), i < l.length →
      (BVHNode.costR2Lgo l b k).get? i =
        some ((foldBB b (l.take (i + 1))).surface_area_half *
          ((k : ℚ) + (i : ℚ) + 1)) := by
  intro l
  induction l with
  | nil => intro b k i h; simp at h
  | cons o rest ih =>
    intro b k i h
    cases i with
    | zero =>
      simp only [BVHNode.costR2Lgo, List.get?_cons_zero, List.take_succ_cons,
        List.take_zero]
      norm_num [foldBB]
    | succ i =>
      simp only [BVHNode.costR2Lgo, List.get?_cons_succ, List.take_succ_cons]
      rw [ih _ (k + 1) i (by simpa using h), foldBB_cons]
      simp only [Option.some.injEq]
      push_cast
      ring

lemma costR2L_length (objects : List Prim) :
    (BVHNode.costR2L objects).length = objects.length - 1 := by
  simp [BVHNode.costR2L, costR2Lgo_length]

lemma costR2L_get? (objects : List Prim) (i : ℕ) (h : i + 1 < objects.length) :
    (BVHNode.costR2L objects).get? i =
      some ((seededBBox (objects.drop (i + 1))).surface_area_half *
        ((objects.length : ℚ) - (i : ℚ) - 1)) := by
  have hi : i < (BVHNode.costR2Lgo ((objects.drop 1).reverse) BVHNode.zeroAABB 0).length := by
    rw [costR2Lgo_length]
    simp
    omega
  unfold BVHNode.costR2L
  rw [List.get?_reverse hi, costR2Lgo_length,
    costR2Lgo_get? _ _ _ _ (by simp at hi ⊢; omega)]
  have hlen1 : (objects.drop 1).length = objects.length - 1 := by simp
  have htake : ((objects.drop 1).reverse).take
      ((objects.drop 1).reverse.length - 1 - i + 1) = (objects.drop (i + 1)).reverse := by
    rw [List.take_reverse, List.length_reverse]
    have hidx : (objects.drop 1).length -
        ((objects.drop 1).length - 1 - i + 1) = i := by
      rw [hlen1]
      omega
    rw [hidx, List.drop_drop, Nat.add_comm 1 i]
  rw [List.length_reverse, hlen1] at htake ⊢
  rw [htake, foldBB_reverse]
  simp only [seededBBox, Option.some.injEq]
  have h2 : 1 + (1 + i) ≤ objects.length := by omega
  rw [Nat.sub_sub, Nat.sub_sub, Nat.cast_sub h2]
  push_cast
  ring

lemma zip_get? :
    ∀ (l1 : List Prim) (l2 : List ℚ) (i : ℕ) (a : Prim) (b : ℚ),
      l1.get? i = some a → l2.get? i = some b →
      (l1.zip l2).get? i = some (a, b) := by
  intro l1
  induction l1 with
  | nil => intro l2 i a b h1 _; simp at h1
  | cons x xs ih =>
    intro l2 i a b h1 h2
    cases l2 with
    | nil => simp at h2
    | cons y ys =>
      cases i with
      | zero =>
        simp only [List.get?_cons_zero, Option.some.injEq] at h1 h2
        simp [List.zip_cons_cons, h1, h2]
      | succ i =>
        simpa [List.zip_cons_cons] using
          ih ys i a b (by simpa using h1) (by simpa using h2)

lemma zip_map_fst_take :
    ∀ (l1 : List Prim) (l2 : List ℚ) (k : ℕ), k ≤ l1.length → k ≤ l2.length →
      ((l1.zip l2).map Prod.fst).take k = l1.take k := by
  intro l1
  induction l1 with
  | nil =>
    intro l2 k h1 _
    have hk : k = 0 := by simpa using h1
    subst hk
    simp
  | cons x xs ih =>
    intro l2 k h1 h2
    cases l2 with
    | nil =>
      have hk : k = 0 := by simpa using h2
      subst hk
      simp
    | cons y ys =>
      cases k with
      | zero => simp
      | succ k =>
        simp [List.zip_cons_cons,
          ih ys k (by simpa using h1) (by simpa using h2)]

lemma forwardGo_get? :
    ∀ (pairs : List (Prim × ℚ)) (b : AABB) (k i : ℕ) (pr : Prim × ℚ),
      pairs.get? i = some pr →
      (BVHNode.forwardGo pairs b k).get? i =
        some ((foldBB b ((pairs.map Prod.fst).take (i + 1))).surface_area_half *
          ((k : ℚ) + (i : ℚ) + 1) + pr.2) := by
  intro pairs
  induction pairs with
  | nil => intro b k i pr h; simp at h
  | cons p rest ih =>
    intro b k i pr h
    obtain ⟨o, cr⟩ := p
    cases i with
    | zero =>
      simp only [List.get?_cons_zero, Option.some.injEq] at h
      subst h
      simp only [BVHNode.forwardGo, List.get?_cons_zero, List.map_cons,
        List.take_succ_cons, List.take_zero]
      norm_num [foldBB]
    | succ i =>
      simp only [BVHNode.forwardGo, List.get?_cons_succ, List.map_cons,
        List.take_succ_cons]
      rw [ih _ (k + 1) i pr (by simpa using h), foldBB_cons]
      simp only [Option.some.injEq]
      push_cast
      ring

lemma axisCosts_get? (objects : List Prim) (i : ℕ) (h : i + 1 < objects.length) :
    (BVHNode.axisCosts objects).get? i =
      some ((seededBBox (objects.take (i + 1))).surface_area_half * ((i : ℚ) + 1) +
        (seededBBox (objects.drop (i + 1))).surface_area_half *
          ((objects.length : ℚ) - (i : ℚ) - 1)) := by
  have hc := costR2L_get? objects i h
  have hilt : i < objects.length := by omega
  have ho : objects.get? i = some (objects.get ⟨i, hilt⟩) := List.get?_eq_get _
  have hz := zip_get? objects (BVHNode.costR2L objects) i _ _ ho hc
  unfold BVHNode.axisCosts
  rw [forwardGo_get? _ _ _ _ _ hz,
    zip_map_fst_take _ _ _ (by omega) (by rw [costR2L_length]; omega)]
  simp only [seededBBox, Option.some.injEq]
  push_cast
  ring

lemma scanMinGo_min_le (axis : Fin 3) :
    ∀ (l : List ℚ) (i : ℕ) (st : Fin 3 × ℕ × ℚ),
      (BVHNode.scanMinGo axis l i st).2.2 ≤ st.2.2 := by
  intro l
  induction l with
  | nil => intro i st; exact le_refl _
  | cons c rest ih =>
    intro i st
    simp only [BVHNode.scanMinGo]
    refine le_trans (ih _ _) ?_
    by_cases h : c < st.2.2
    · rw [if_pos h]
      exact le_of_lt h
    · rw [if_neg h]

lemma scanMinGo_le_mem (axis : Fin 3) :
    ∀ (l : List ℚ) (i : ℕ) (st : Fin 3 × ℕ × ℚ) (c : ℚ), c ∈ l →
      (BVHNode.scanMinGo axis l i st).2.2 ≤ c := by
  intro l
  induction l with
  | nil =>
    intro i st c hc
    exact absurd hc (List.not_mem_nil c)
  | cons c' rest ih =>
    intro i st c hc
    simp only [BVHNode.scanMinGo]
    rcases List.mem_cons.mp hc with rfl | hc
    · refine le_trans (scanMinGo_min_le axis rest (i + 1) _) ?_
      by_cases h : c < st.2.2
      · rw [if_pos h]
      · rw [if_neg h]
        exact not_lt.mp h
    · exact ih _ _ _ hc

lemma scanMinGo_attain (axis : Fin 3) :
    ∀ (l : List ℚ) (i : ℕ) (st : Fin 3 × ℕ × ℚ),
      BVHNode.scanMinGo axis l i st = st ∨
      ((BVHNode.scanMinGo axis l i st).1 = axis ∧
        ∃ j, l.get? j = some (BVHNode.scanMinGo axis l i st).2.2 ∧
          (BVHNode.scanMinGo axis l i st).2.1 = i + j) := by
  intro l
  induction l with
  | nil => intro i st; exact Or.inl rfl
  | cons c rest ih =>
    intro i st
    simp only [BVHNode.scanMinGo]
    rcases ih (i + 1) (if c < st.2.2 then (axis, i, c) else st) with heq | ⟨hax, j, hj, hidx⟩
    · rw [heq]
      by_cases h : c < st.2.2
      · rw [if_pos h]
        exact Or.inr ⟨rfl, 0, by simp, by simp⟩
      · rw [if_neg h]
        exact Or.inl rfl
    · exact Or.inr ⟨hax, j + 1, by simpa using hj, by rw [hidx]; omega⟩

lemma build_leaf (objects : List Prim) (fuel : ℕ) (hne : objects ≠ [])
    (hlen : objects.length ≤ 5) :
    BVHNode.build (fuel + 1) objects 5 =
      some (.leaf objects (primsBBox objects)) := by
  obtain ⟨o0, rest, rfl⟩ := List.exists_cons_of_ne_nil hne
  simp only [BVHNode.build, if_pos hlen]
  have hfold : List.foldl (fun b o => b.merge o.bounding_box)
      o0.bounding_box (o0 :: rest) = primsBBox (o0 :: rest) := by
    simp only [List.foldl_cons, AABB.merge_self, primsBBox, foldBB]
  rw [hfold]

lemma build_not_leaf (objects : List Prim) (fuel : ℕ) (h5 : 5 < objects.length) :
    ∀ (os : List Prim) (bbx : AABB),
      BVHNode.build fuel objects 5 ≠ some (.leaf os bbx) := by
  intro os bbx
  cases fuel with
  | zero => simp [BVHNode.build]
  | succ fuel =>
    simp only [BVHNode.build, if_neg (by omega : ¬ objects.length ≤ 5)]
    generalize BVHNode.build fuel _ 5 = r1
    generalize BVHNode.build fuel _ 5 = r2
    cases r1 <;> cases r2 <;> simp

lemma scanMin_min_le (axis : Fin 3) (l : List ℚ) (st : Fin 3 × ℕ × ℚ) :
    (BVHNode.scanMin axis l st).2.2 ≤ st.2.2 :=
  scanMinGo_min_le axis l 0 st

lemma scanMin_le_mem (axis : Fin 3) (l : List ℚ) (st : Fin 3 × ℕ × ℚ)
    (c : ℚ) (hc : c ∈ l) : (BVHNode.scanMin axis l st).2.2 ≤ c :=
  scanMinGo_le_mem axis l 0 st c hc

lemma scanMin_attain (axis : Fin 3) (l : List ℚ) (st : Fin 3 × ℕ × ℚ) :
    BVHNode.scanMin axis l st = st ∨
    ((BVHNode.scanMin axis l st).1 = axis ∧
      ∃ j, l.get? j = some (BVHNode.scanMin axis l st).2.2 ∧
        (BVHNode.scanMin axis l st).2.1 = j) := by
  rcases scanMinGo_attain axis l 0 st with h | ⟨hax, j, hj, hidx⟩
  · exact Or.inl h
  · exact Or.inr ⟨hax, j, hj, by simpa using hidx⟩

lemma pick3_zero (c0 c1 c2 : List ℚ) : pick3 c0 c1 c2 0 = c0 := rfl

lemma pick3_one (c0 c1 c2 : List ℚ) : pick3 c0 c1 c2 1 = c1 := rfl

lemma pick3_two (c0 c1 c2 : List ℚ) : pick3 c0 c1 c2 2 = c2 := rfl

lemma bestSplit_spec (c0 c1 c2 : List ℚ) :
    (∀ c ∈ c0 ++ c1 ++ c2,
      (BVHNode.scanMin 2 c2 (BVHNode.scanMin 1 c1
        (BVHNode.scanMin 0 c0 (0, 0, f32_max)))).2.2 ≤ c) ∧
    ((BVHNode.scanMin 2 c2 (BVHNode.scanMin 1 c1
        (BVHNode.scanMin 0 c0 (0, 0, f32_max)))).2.2 < f32_max →
      (pick3 c0 c1 c2 (BVHNode.scanMin 2 c2 (BVHNode.scanMin 1 c1
        (BVHNode.scanMin 0 c0 (0, 0, f32_max)))).1).get?
        (BVHNode.scanMin 2 c2 (BVHNode.scanMin 1 c1
          (BVHNode.scanMin 0 c0 (0, 0, f32_max)))).2.1 =
        some (BVHNode.scanMin 2 c2 (BVHNode.scanMin 1 c1
          (BVHNode.scanMin 0 c0 (0, 0, f32_max)))).2.2) := by
  constructor
  · intro c hc
    rcases List.mem_append.mp hc with hc' | hc2
    · rcases List.mem_append.mp hc' with hc0 | hc1
      · exact le_trans (scanMin_min_le 2 c2 _)
          (le_trans (scanMin_min_le 1 c1 _) (scanMin_le_mem 0 c0 _ c hc0))
      · exact le_trans (scanMin_min_le 2 c2 _) (scanMin_le_mem 1 c1 _ c hc1)
    · exact scanMin_le_mem 2 c2 _ c hc2
  · intro hlt
    rcases scanMin_attain 2 c2 (BVHNode.scanMin 1 c1
        (BVHNode.scanMin 0 c0 (0, 0, f32_max))) with h2 | ⟨hax2, j2, hj2, hidx2⟩
    · rw [h2]
      rw [h2] at hlt
      rcases scanMin_attain 1 c1 (BVHNode.scanMin 0 c0 (0, 0, f32_max)) with
        h1 | ⟨hax1, j1, hj1, hidx1⟩
      · rw [h1]
        rw [h1] at hlt
        rcases scanMin_attain 0 c0 (0, 0, f32_max) with h0 | ⟨hax0, j0, hj0, hidx0⟩
        · rw [h0] at hlt
          exact absurd hlt (lt_irrefl _)
        · rw [hax0, hidx0, pick3_zero]
          exact hj0
      · rw [hax1, hidx1, pick3_one]
        exact hj1
    · rw [hax2, hidx2, pick3_two]
      exact hj2

/-- C8 counterexample: for six spheres sorted on the build axis, the
cost list the build evaluates differs from the claim's
`halfSA(left)*count + halfSA(right)*count` formula — the code's passes
seed their running box with the degenerate box at the origin. -/
theorem C8_counterexample :
    List.Pairwise (fun a b : Prim =>
      a.bounding_box.min.nth 0 ≤ b.bounding_box.min.nth 0) exSpheres ∧
    BVHNode.axisCosts exSpheres ≠ spec_sah_costs exSpheres := by
  constructor
  · norm_num [exSpheres, Prim.bounding_box, Sphere.bounding_box, AABB.new,
      List.pairwise_cons, matA]
  · norm_num [exSpheres, BVHNode.axisCosts, BVHNode.costR2L, BVHNode.costR2Lgo,
      BVHNode.forwardGo, BVHNode.zeroAABB, spec_sah_costs, primsBBox, foldBB,
      Prim.bounding_box, Sphere.bounding_box, AABB.new, AABB.merge,
      AABB.surface_area_half, Vec3.vmin, Vec3.vmax, Vec3.ZERO, List.range_succ,
      matA, min_def, max_def]

/-- C8 amended: `BVHNode::build` emits a Leaf with all primitives and
their merged box exactly when the (nonempty) count is ≤ 5; the split
cost evaluated at position `i` equals
`halfSA(zero-seeded bbox of 0..i) * (i+1) +
 halfSA(zero-seeded bbox of i+1..n-1) * (n-i-1)`, the running boxes
being seeded with `AABB::new(ZERO, ZERO)`; and the selection fold
returns the minimum cost over all three axes and positions (attained at
the chosen axis/index whenever some cost beats `f32::MAX`). -/
theorem C8_build_leaf_costs_argmin :
    (∀ (objects : List Prim) (fuel : ℕ), objects ≠ [] → objects.length ≤ 5 →
      BVHNode.build (fuel + 1) objects 5 = some (.leaf objects (primsBBox objects))) ∧
    (∀ (objects : List Prim) (fuel : ℕ), 5 < objects.length →
      ∀ (os : List Prim) (bbx : AABB),
        BVHNode.build fuel objects 5 ≠ some (.leaf os bbx)) ∧
    (∀ (objects : List Prim) (i : ℕ), i + 1 < objects.length →
      (BVHNode.axisCosts objects).get? i =
        some ((seededBBox (objects.take (i + 1))).surface_area_half * ((i : ℚ) + 1) +
          (seededBBox (objects.drop (i + 1))).surface_area_half *
            ((objects.length : ℚ) - (i : ℚ) - 1))) ∧
    (∀ c0 c1 c2 : List ℚ,
      (∀ c ∈ c0 ++ c1 ++ c2,
        (BVHNode.scanMin 2 c2 (BVHNode.scanMin 1 c1
          (BVHNode.scanMin 0 c0 (0, 0, f32_max)))).2.2 ≤ c) ∧
      ((BVHNode.scanMin 2 c2 (BVHNode.scanMin 1 c1
          (BVHNode.scanMin 0 c0 (0, 0, f32_max)))).2.2 < f32_max →
        (pick3 c0 c1 c2 (BVHNode.scanMin 2 c2 (BVHNode.scanMin 1 c1
          (BVHNode.scanMin 0 c0 (0, 0, f32_max)))).1).get?
          (BVHNode.scanMin 2 c2 (BVHNode.scanMin 1 c1
            (BVHNode.scanMin 0 c0 (0, 0, f32_max)))).2.1 =
          some (BVHNode.scanMin 2 c2 (BVHNode.scanMin 1 c1
            (BVHNode.scanMin 0 c0 (0, 0, f32_max)))).2.2)) :=
  ⟨build_leaf, fun objects fuel h5 => build_not_leaf objects fuel h5,
    axisCosts_get?, bestSplit_spec⟩

/-- C8 amended, witness: concrete instances of all four conjuncts. -/
theorem C8_build_leaf_costs_argmin_witness :
    BVHNode.build 1 [.sphere ⟨⟨10, 10, 10⟩, 1, matA⟩] 5 =
      some (.leaf [.sphere ⟨⟨10, 10, 10⟩, 1, matA⟩]
        (primsBBox [.sphere ⟨⟨10, 10, 10⟩, 1, matA⟩])) ∧
    (∀ (os : List Prim) (bbx : AABB),
      BVHNode.build 1 exSpheres 5 ≠ some (.leaf os bbx)) ∧
    (BVHNode.axisCosts exSpheres).get? 0 =
      some ((seededBBox (exSpheres.take (0 + 1))).surface_area_half *
          (((0 : ℕ) : ℚ) + 1) +
        (seededBBox (exSpheres.drop (0 + 1))).surface_area_half *
          ((exSpheres.length : ℚ) - ((0 : ℕ) : ℚ) - 1)) ∧
    (pick3 [2, 1] [] [3] (BVHNode.scanMin 2 [3] (BVHNode.scanMin 1 []
        (BVHNode.scanMin 0 [2, 1] (0, 0, f32_max)))).1).get?
      (BVHNode.scanMin 2 [3] (BVHNode.scanMin 1 []
        (BVHNode.scanMin 0 [2, 1] (0, 0, f32_max)))).2.1 =
      some (BVHNode.scanMin 2 [3] (BVHNode.scanMin 1 []
        (BVHNode.scanMin 0 [2, 1] (0, 0, f32_max)))).2.2 := by
  refine ⟨?_, ?_, ?_, ?_⟩
  · exact C8_build_leaf_costs_argmin.1 _ 0 (by simp) (by norm_num)
  · exact fun os bbx =>
      C8_build_leaf_costs_argmin.2.1 exSpheres 1 (by norm_num [exSpheres]) os bbx
  · exact C8_build_leaf_costs_argmin.2.2.1 exSpheres 0 (by norm_num [exSpheres])
  · exact (C8_build_leaf_costs_argmin.2.2.2 [2, 1] [] [3]).2
      (by norm_num [BVHNode.scanMin, BVHNode.scanMinGo, f32_max])

end Nebula
